import Mathlib

/-!
Shallow embedding of `skrl/agents/jax/ppo/ppo.py` (PPO agent) and proofs of the
specification claims about it.  Floating-point arrays are modelled as lists over
an ordered field (`ℚ` where everything is exact, `ℝ` where the source uses
`exp`/`sqrt`); machine floats' rounding is not modelled.
-/

namespace Skrl

/-- `jnp.clip(x, lo, hi)` / `np.clip`: clamp `x` into `[lo, hi]`
(min of max, as in the numpy semantics `min(max(x, lo), hi)`). -/
def jclip {α : Type} [LinearOrder α] (x lo hi : α) : α := min (max x lo) hi

/-- `ndarray.mean()`: sum divided by length (0 for the empty array is junk,
never used by the claims). -/
def lmean {α : Type} [DivisionRing α] (l : List α) : α := l.sum / (l.length : α)

/-- The backward accumulation loop of `compute_gae` (ppo.py lines 92-101):

    advantage = 0
    for i in reversed(range(memory_size)):
        next_values = values[i + 1] if i < memory_size - 1 else next_values
        advantage = rewards[i] - values[i]
                    + discount_factor * not_dones[i] * (next_values + lambda_coefficient * advantage)
        advantages[i] = advantage

expressed structurally: the advantage stored at position `i` is computed from
the advantage stored at position `i+1` (the running accumulator, seeded at 0
past the end) and from `values[i+1]` (the supplied bootstrap value at the last
position). -/
def gaeAdv {α : Type} [LinearOrderedField α]
    (discount_factor lambda_coefficient next_values : α) :
    List α → List Bool → List α → List α
  | r :: rs, d :: ds, v :: vs =>
    let rest := gaeAdv discount_factor lambda_coefficient next_values rs ds vs
    let nv := match vs with
      | [] => next_values
      | v1 :: _ => v1
    let na := match rest with
      | [] => 0
      | a1 :: _ => a1
    (r - v + discount_factor * (if d then 0 else 1) * (nv + lambda_coefficient * na)) :: rest
  | _, _, _ => []

/-- `np.var` with ddof = 0: mean of the squared deviations from the mean. -/
noncomputable def npVar (l : List ℝ) : ℝ := lmean (l.map (fun x => (x - lmean l) ^ 2))

/-- `np.std`: square root of the mean of the squared deviations (ddof = 0). -/
noncomputable def npStd (l : List ℝ) : ℝ := Real.sqrt (npVar l)

/-- The advantage-normalization post-pass of `compute_gae` (ppo.py line 105):
`advantages = (advantages - advantages.mean()) / (advantages.std() + 1e-8)`. -/
noncomputable def normalizeAdv (l : List ℝ) : List ℝ :=
  l.map (fun x => (x - lmean l) / (npStd l + 1e-8))

/-- `compute_gae` (ppo.py lines 68-107): backward advantage pass, then
`returns = advantages + values`, then in-place normalization of the advantages.
Returns the pair `(returns, advantages)`. -/
noncomputable def compute_gae (rewards : List ℝ) (dones : List Bool) (values : List ℝ)
    (next_values : ℝ) (discount_factor : ℝ) (lambda_coefficient : ℝ) :
    List ℝ × List ℝ :=
  let advantages := gaeAdv discount_factor lambda_coefficient next_values rewards dones values
  let returns := List.zipWith (· + ·) advantages values
  (returns, normalizeAdv advantages)

/-- `_compute_gae` (ppo.py lines 110-135): the `@jax.jit` compiled variant.
Its whole body is `raise NotImplementedError`; modelled as a fallible function
that errors on every input. -/
def _compute_gae (rewards : List ℝ) (dones : List Bool) (values : List ℝ)
    (next_values : ℝ) (discount_factor : ℝ) (lambda_coefficient : ℝ) :
    Except String (List ℝ × List ℝ) :=
  Except.error "NotImplementedError"

/-- The inner `_policy_loss` of `_update_policy` (ppo.py lines 146-158), as a
function of the recomputed log-probabilities (`next_log_prob`, produced by the
policy's forward pass), the sampled log-probabilities, the sampled advantages
and the clip ratio.  Returns the pair `(loss, kl_divergence)`:
`ratio = next_log_prob - sampled_log_prob`,
`kl = mean((exp(ratio) - 1) - ratio)`, then `ratio := exp(...)`,
`surrogate = advantages * ratio`,
`surrogate_clipped = advantages * clip(ratio, 1 - ratio_clip, 1 + ratio_clip)`,
`loss = -mean(min(surrogate, surrogate_clipped))`. -/
noncomputable def _policy_loss (next_log_prob sampled_log_prob sampled_advantages : List ℝ)
    (ratio_clip : ℝ) : ℝ × ℝ :=
  let ratio0 := List.zipWith (fun n o => n - o) next_log_prob sampled_log_prob
  let kl_divergence := lmean (ratio0.map (fun r => (Real.exp r - 1) - r))
  let ratio := List.zipWith (fun n o => Real.exp (n - o)) next_log_prob sampled_log_prob
  let surrogate := List.zipWith (fun a r => a * r) sampled_advantages ratio
  let surrogate_clipped :=
    List.zipWith (fun a r => a * jclip r (1 - ratio_clip) (1 + ratio_clip))
      sampled_advantages ratio
  (-lmean (List.zipWith min surrogate surrogate_clipped), kl_divergence)

/-- The inner `_value_loss` of `_update_value` (ppo.py lines 164-177), as a
function of the predicted values (produced by the value model's forward pass),
the sampled old values, the sampled returns, the loss scale and the clip
configuration:
if `clip_predicted_values` then
`predicted = sampled_values + clip(predicted - sampled_values, -value_clip, value_clip)`;
`loss = value_loss_scale * mean((sampled_returns - predicted) ** 2)`. -/
def _value_loss {α : Type} [LinearOrderedField α]
    (predicted_values sampled_values sampled_returns : List α)
    (value_loss_scale : α) (clip_predicted_values : Bool) (value_clip : α) : α :=
  let predicted :=
    if clip_predicted_values then
      List.zipWith (fun p sv => sv + jclip (p - sv) (-value_clip) value_clip)
        predicted_values sampled_values
    else predicted_values
  value_loss_scale * lmean (List.zipWith (fun r p => (r - p) ^ 2) sampled_returns predicted)

/-! ## Configuration dictionary (`PPO_DEFAULT_CONFIG` and `PPO.__init__`) -/

/-- A Python configuration value as it occurs in `PPO_DEFAULT_CONFIG`:
an int, a float (exact rational), a bool, a string, `None`, or a nested dict. -/
inductive CfgVal : Type where
  | i (n : ℤ)
  | f (q : ℚ)
  | b (v : Bool)
  | s (v : String)
  | none
  | dict (d : List (String × CfgVal))

/-- The module-level `PPO_DEFAULT_CONFIG` dictionary (ppo.py lines 22-65),
in insertion order. -/
def PPO_DEFAULT_CONFIG : List (String × CfgVal) := [
  ("rollouts", CfgVal.i 16),
  ("learning_epochs", CfgVal.i 8),
  ("mini_batches", CfgVal.i 2),
  ("discount_factor", CfgVal.f (99 / 100)),
  ("lambda", CfgVal.f (95 / 100)),
  ("learning_rate", CfgVal.f (1 / 1000)),
  ("learning_rate_scheduler", CfgVal.none),
  ("learning_rate_scheduler_kwargs", CfgVal.dict []),
  ("state_preprocessor", CfgVal.none),
  ("state_preprocessor_kwargs", CfgVal.dict []),
  ("value_preprocessor", CfgVal.none),
  ("value_preprocessor_kwargs", CfgVal.dict []),
  ("random_timesteps", CfgVal.i 0),
  ("learning_starts", CfgVal.i 0),
  ("grad_norm_clip", CfgVal.f (1 / 2)),
  ("ratio_clip", CfgVal.f (1 / 5)),
  ("value_clip", CfgVal.f (1 / 5)),
  ("clip_predicted_values", CfgVal.b false),
  ("entropy_loss_scale", CfgVal.f 0),
  ("value_loss_scale", CfgVal.f 1),
  ("kl_threshold", CfgVal.i 0),
  ("rewards_shaper", CfgVal.none),
  ("experiment", CfgVal.dict [
    ("directory", CfgVal.s ""),
    ("experiment_name", CfgVal.s ""),
    ("write_interval", CfgVal.i 250),
    ("checkpoint_interval", CfgVal.i 1000),
    ("store_separately", CfgVal.b false),
    ("wandb", CfgVal.b false),
    ("wandb_kwargs", CfgVal.dict [])])]

/-- Python `d[k] = v` on an insertion-ordered dict: replace the value in place
if the key exists, append otherwise. -/
def dictSet : List (String × CfgVal) → String → CfgVal → List (String × CfgVal)
  | [], k, v => [(k, v)]
  | (k1, v1) :: rest, k, v =>
    if k1 = k then (k, v) :: rest else (k1, v1) :: dictSet rest k v

/-- Python `d.update(overrides)`: assign every override key into `d`. -/
def dictUpdate (d : List (String × CfgVal)) (overrides : List (String × CfgVal)) :
    List (String × CfgVal) :=
  overrides.foldl (fun acc kv => dictSet acc kv.1 kv.2) d

/-- Python `d.get(k)` / `d[k]` lookup. -/
def dictLookup : List (String × CfgVal) → String → Option CfgVal
  | [], _ => Option.none
  | (k1, v1) :: rest, k => if k1 = k then some v1 else dictLookup rest k

/-- The configuration merge of `PPO.__init__` (ppo.py lines 214-216):

    # _cfg = copy.deepcopy(PPO_DEFAULT_CONFIG)  # TODO: TypeError: ...
    _cfg = PPO_DEFAULT_CONFIG
    _cfg.update(cfg if cfg is not None else {})

`_cfg` aliases the module-level dictionary (the deepcopy is commented out), so
`update` mutates it in place.  First component: the agent's configuration;
second component: the module-level `PPO_DEFAULT_CONFIG` after construction. -/
def PPO_init_cfg (module_defaults : List (String × CfgVal))
    (cfg : Option (List (String × CfgVal))) :
    List (String × CfgVal) × List (String × CfgVal) :=
  let c := dictUpdate module_defaults (cfg.getD [])
  (c, c)

/-! ## The `_update` epoch/minibatch loop (ppo.py lines 432-544)

The models, optimizers, preprocessors and scheduler are external collaborators
(spec section 1); they are abstracted as an `UpdateCtx` of oracle functions over
one combined mutable state `S`, while the control flow of `_update` is embedded
exactly. -/

/-- External collaborators used by `_update`, over a combined agent state `S`,
minibatch type `MB` and gradient type `G`:
`statePre s mb train` = `self._state_preprocessor(sampled_states, train=...)`
(returns the preprocessed minibatch and the preprocessor's updated statistics);
`policyLoss` = `_update_policy` (grad, loss, KL);
`entropy` = `self.policy.get_entropy(role="policy").mean()`;
`policyStep`/`valueStep` = `optimizer.step(grad, model, lr_override)`;
`valueLoss` = `_update_value` (grad, loss), taking the value-loss scale, the
clip flag and the clip coefficient;
`schedStep` = `self.scheduler.step(mean_kl)`; `schedLR` = `self.scheduler._lr`. -/
structure UpdateCtx (S MB G : Type) where
  statePre : S → MB → Bool → MB × S
  policyLoss : S → MB → ℚ → G × ℚ × ℚ
  entropy : S → ℚ
  policyStep : S → G → Option ℚ → S
  valueLoss : S → MB → ℚ → Bool → ℚ → G × ℚ
  valueStep : S → G → Option ℚ → S
  schedStep : S → ℚ → S
  schedLR : S → ℚ

/-- The configuration fields read by `_update` (plus `grad_norm_clip`, which is
stored by `__init__` but whose only use is commented out):
`has_lr_scheduler` = `self._learning_rate_scheduler is not None`,
`scheduler_is_kl_adaptive` = `isinstance(self.scheduler, KLAdaptiveRL)`. -/
structure PPOCfg where
  learning_epochs : ℕ
  mini_batches : ℕ
  grad_norm_clip : ℚ
  ratio_clip : ℚ
  value_clip : ℚ
  clip_predicted_values : Bool
  entropy_loss_scale : ℚ
  value_loss_scale : ℚ
  kl_threshold : ℚ
  has_lr_scheduler : Bool
  scheduler_is_kl_adaptive : Bool

/-- `self.scheduler._lr if self.scheduler else None`: `self.scheduler` is set
only when a scheduler is configured and it is `KLAdaptiveRL`
(ppo.py lines 268-274, 499, 512). -/
def lrOverride {S MB G : Type} (ctx : UpdateCtx S MB G) (cfg : PPOCfg) (s : S) : Option ℚ :=
  if cfg.has_lr_scheduler && cfg.scheduler_is_kl_adaptive then some (ctx.schedLR s) else Option.none

/-- State preprocessing of one minibatch
(`sampled_states = self._state_preprocessor(sampled_states, train=not epoch)`). -/
def mbPre {S MB G : Type} (ctx : UpdateCtx S MB G) (epoch : ℕ) (s : S) (mb : MB) : MB × S :=
  ctx.statePre s mb (epoch == 0)

/-- The `_update_policy` call on one (preprocessed) minibatch:
`(grad, policy_loss, kl_divergence)`. -/
def mbPolicy {S MB G : Type} (ctx : UpdateCtx S MB G) (cfg : PPOCfg) (epoch : ℕ)
    (s : S) (mb : MB) : G × ℚ × ℚ :=
  ctx.policyLoss (mbPre ctx epoch s mb).2 (mbPre ctx epoch s mb).1 cfg.ratio_clip

/-- The approximate KL divergence computed for one minibatch. -/
def mbKL {S MB G : Type} (ctx : UpdateCtx S MB G) (cfg : PPOCfg) (epoch : ℕ)
    (s : S) (mb : MB) : ℚ :=
  (mbPolicy ctx cfg epoch s mb).2.2

/-- Result of one epoch's minibatch loop: final combined state, the KL
divergences collected (`kl_divergences`), the number of policy / value
optimizer steps taken, and the cumulative policy / value / entropy losses. -/
structure MBRes (S : Type) where
  st : S
  kls : List ℚ
  psteps : ℕ
  vsteps : ℕ
  cumPolicy : ℚ
  cumValue : ℚ
  cumEntropy : ℚ

/-- The minibatch loop of one epoch of `_update` (ppo.py lines 472-528):
preprocess the states, compute the policy loss and KL, append the KL to
`kl_divergences`, break if `self._kl_threshold and kl_divergence > self._kl_threshold`,
otherwise compute the entropy loss, take the policy optimizer step, compute the
value loss, take the value optimizer step, and accumulate the losses. -/
def runMinibatches {S MB G : Type} (ctx : UpdateCtx S MB G) (cfg : PPOCfg) (epoch : ℕ) :
    S → List MB → MBRes S
  | s, [] => ⟨s, [], 0, 0, 0, 0, 0⟩
  | s, mb :: rest =>
    let pl := mbPolicy ctx cfg epoch s mb
    if cfg.kl_threshold ≠ 0 ∧ cfg.kl_threshold < pl.2.2 then
      ⟨(mbPre ctx epoch s mb).2, [pl.2.2], 0, 0, 0, 0, 0⟩
    else
      let s1 := (mbPre ctx epoch s mb).2
      let entropy_loss : ℚ :=
        if cfg.entropy_loss_scale ≠ 0 then -cfg.entropy_loss_scale * ctx.entropy s1 else 0
      let s2 := ctx.policyStep s1 pl.1 (lrOverride ctx cfg s1)
      let vl := ctx.valueLoss s2 (mbPre ctx epoch s mb).1
        cfg.value_loss_scale cfg.clip_predicted_values cfg.value_clip
      let s3 := ctx.valueStep s2 vl.1 (lrOverride ctx cfg s2)
      let r := runMinibatches ctx cfg epoch s3 rest
      ⟨r.st, pl.2.2 :: r.kls, r.psteps + 1, r.vsteps + 1,
        r.cumPolicy + pl.2.1, r.cumValue + vl.2,
        r.cumEntropy + (if cfg.entropy_loss_scale ≠ 0 then entropy_loss else 0)⟩

/-- The learning-rate update at the end of one epoch (ppo.py lines 530-533):
when a scheduler is configured and it is KL-adaptive, `self.scheduler.step` is
called with `np.mean(kl_divergences)`; `some` of the argument, `none` if no call
is made. -/
def epochSchedCall (cfg : PPOCfg) (kls : List ℚ) : Option ℚ :=
  if cfg.has_lr_scheduler && cfg.scheduler_is_kl_adaptive then some (lmean kls) else Option.none

/-- Result of the whole epoch loop: final combined state, the arguments of the
scheduler `step` calls (one per epoch with a KL-adaptive scheduler), total
optimizer step counts and cumulative losses. -/
structure UpdRes (S : Type) where
  st : S
  schedCalls : List ℚ
  psteps : ℕ
  vsteps : ℕ
  cumPolicy : ℚ
  cumValue : ℚ
  cumEntropy : ℚ

/-- The epoch loop of `_update` (ppo.py lines 468-533): run the minibatch loop
(on the same `sampled_batches` every epoch), then step the KL-adaptive
scheduler with the mean of that epoch's collected KL divergences.
`epoch` is the current epoch index, the second argument the number of epochs
still to run. -/
def runEpochs {S MB G : Type} (ctx : UpdateCtx S MB G) (cfg : PPOCfg) (mbs : List MB) :
    ℕ → ℕ → S → UpdRes S
  | _, 0, s => ⟨s, [], 0, 0, 0, 0, 0⟩
  | e, n + 1, s =>
    let r := runMinibatches ctx cfg e s mbs
    let call := epochSchedCall cfg r.kls
    let s1 := call.elim r.st (ctx.schedStep r.st)
    let rest := runEpochs ctx cfg mbs (e + 1) n s1
    ⟨rest.st, call.toList ++ rest.schedCalls, r.psteps + rest.psteps, r.vsteps + rest.vsteps,
      r.cumPolicy + rest.cumPolicy, r.cumValue + rest.cumValue, r.cumEntropy + rest.cumEntropy⟩

/-- The epoch/minibatch part of `_update` plus the tracked metrics recorded at
its end (ppo.py lines 535-544): cumulative losses normalized by
`learning_epochs * mini_batches`, and the current learning rate when a
scheduler is configured. -/
def runUpdate {S MB G : Type} (ctx : UpdateCtx S MB G) (cfg : PPOCfg) (s : S)
    (mbs : List MB) : UpdRes S × List (String × ℚ) :=
  let r := runEpochs ctx cfg mbs 0 cfg.learning_epochs s
  let denom : ℚ := (cfg.learning_epochs : ℚ) * (cfg.mini_batches : ℚ)
  (r, [("Loss / Policy loss", r.cumPolicy / denom), ("Loss / Value loss", r.cumValue / denom)]
      ++ (if cfg.entropy_loss_scale ≠ 0 then [("Loss / Entropy loss", r.cumEntropy / denom)] else [])
      ++ (if cfg.has_lr_scheduler then [("Learning / Learning rate", ctx.schedLR r.st)] else []))

/-- Replace only the `grad_norm_clip` entry of a configuration. -/
def setGradNormClip (cfg : PPOCfg) (x : ℚ) : PPOCfg :=
  ⟨cfg.learning_epochs, cfg.mini_batches, x, cfg.ratio_clip, cfg.value_clip,
    cfg.clip_predicted_values, cfg.entropy_loss_scale, cfg.value_loss_scale,
    cfg.kl_threshold, cfg.has_lr_scheduler, cfg.scheduler_is_kl_adaptive⟩

/-! ## `act` / `record_transition` (ppo.py lines 324-403) -/

/-- The policy model's interface as used by `act`: `random_act` and the
stochastic `act` returning `(actions, log_prob, outputs)`. -/
structure PolicyOracle (S A O : Type) where
  random_act : S → A
  act : S → A × ℚ × O

/-- What `PPO.act` returns: the bare `random_act` result in the random branch,
or the `(actions, log_prob, outputs)` triple in the stochastic branch. -/
inductive ActOut (A O : Type) where
  | random (a : A)
  | sampled (a : A) (log_prob : ℚ) (outputs : O)

/-- One row written into a memory by `record_transition`
(`add_samples(states=..., ..., log_prob=self._current_log_prob, values=values)`).
`log_prob` is an `Option` because `self._current_log_prob` is initialized to
`None`. -/
structure Transition (S A : Type) where
  states : S
  actions : A
  rewards : ℚ
  next_states : S
  terminated : Bool
  truncated : Bool
  log_prob : Option ℚ
  values : ℚ

/-- The agent state touched by `act` and `record_transition`: the cached
`_current_log_prob` and `_current_next_states`, the primary memory and the
secondary memories. -/
structure AgentState (S A : Type) where
  current_log_prob : Option ℚ
  current_next_states : Option S
  memory : List (Transition S A)
  secondary_memories : List (List (Transition S A))

/-- `PPO.act` (ppo.py lines 324-350): if `timestep < self._random_timesteps`
return `self.policy.random_act({"states": self._state_preprocessor(states)})`
without touching any agent state; otherwise do a stochastic forward pass and
cache `self._current_log_prob = log_prob`. -/
def PPO_act {S A O : Type} (policy : PolicyOracle S A O) (statePre : S → S)
    (random_timesteps : ℕ) (ag : AgentState S A) (states : S) (timestep : ℕ) :
    ActOut A O × AgentState S A :=
  if timestep < random_timesteps then
    (ActOut.random (policy.random_act (statePre states)), ag)
  else
    let r := policy.act (statePre states)
    (ActOut.sampled r.1 r.2.1 r.2.2,
      ⟨some r.2.1, ag.current_next_states, ag.memory, ag.secondary_memories⟩)

/-- `PPO.record_transition` (ppo.py lines 352-403), with a non-`None` memory:
cache `next_states`, apply the optional rewards shaper, compute the value
estimate (value forward pass on the preprocessed states, then the inverse value
preprocessor), and append the transition — with `log_prob :=
self._current_log_prob` as cached — to the primary memory and to every
secondary memory. -/
def PPO_record_transition {S A : Type} (valueAct : S → ℚ) (valuePreInv : ℚ → ℚ)
    (statePre : S → S) (rewards_shaper : Option (ℚ → ℕ → ℕ → ℚ))
    (ag : AgentState S A) (states : S) (actions : A) (rewards : ℚ) (next_states : S)
    (terminated truncated : Bool) (timestep timesteps : ℕ) : AgentState S A :=
  let rewards1 := (rewards_shaper.elim rewards (fun f => f rewards timestep timesteps))
  let values := valuePreInv (valueAct (statePre states))
  let t : Transition S A :=
    ⟨states, actions, rewards1, next_states, terminated, truncated, ag.current_log_prob, values⟩
  ⟨ag.current_log_prob, some next_states, ag.memory ++ [t],
    ag.secondary_memories.map (fun m => m ++ [t])⟩

/-! ## Concrete instantiations used by the witness theorems -/

/-- A concrete update context over state `ℚ`: the policy-loss oracle always
reports KL divergence 5. -/
def witCtx : UpdateCtx ℚ Unit Unit :=
  ⟨fun s mb _ => (mb, s + 1), fun _ _ _ => ((), 2, 5), fun _ => 0,
    fun s _ _ => s + 100, fun _ _ _ _ _ => ((), 3), fun s _ _ => s + 1000,
    fun s _ => s, fun _ => 7⟩

/-- A concrete configuration with `kl_threshold = 1` and a KL-adaptive
scheduler. -/
def witCfg : PPOCfg := ⟨8, 2, 1 / 2, 1 / 5, 1 / 5, false, 0, 1, 1, true, true⟩

/-- A concrete policy oracle for the `act` witness. -/
def witPolicy : PolicyOracle ℚ ℚ Unit := ⟨fun s => s + 10, fun s => (s, 1 / 3, ())⟩

/-- A concrete agent state with a previously cached log-probability. -/
def witAgent : AgentState ℚ ℚ := ⟨some (9 / 10), Option.none, [], [[]]⟩

/-- The advantage pass produces one advantage per recorded step. -/
theorem gaeAdv_length {α : Type} [LinearOrderedField α] (γ lam nv : α)
    (rewards : List α) :
    ∀ (dones : List Bool) (values : List α),
      dones.length = rewards.length → values.length = rewards.length →
      (gaeAdv γ lam nv rewards dones values).length = rewards.length := by
  induction rewards with
  | nil =>
    intro dones values _ _
    cases dones <;> cases values <;> simp [gaeAdv]
  | cons r rs ih =>
    intro dones values hd hv
    cases dones with
    | nil => simp at hd
    | cons d ds =>
      cases values with
      | nil => simp at hv
      | cons v vs =>
        simp only [gaeAdv, List.length_cons]
        rw [ih ds vs (by simpa using hd) (by simpa using hv)]

/-- C1: `compute_gae` computes advantages by a single backward pass (index
`T-1` down to `0`) with a running accumulator seeded at 0; at each step
`advantage = reward[i] - value[i] + discount_factor * (1 - done[i]) *
(next_value + lambda * advantage)` where `next_value` is `value[i+1]` for every
step except the last, which uses the supplied bootstrap value, and the
accumulator read at step `i` is the advantage stored at `i+1` (0 past the end);
the per-step result is stored in `advantages[i]`. -/
theorem gae_backward_pass {α : Type} [LinearOrderedField α] (γ lam nv : α)
    (rewards : List α) (dones : List Bool) (values : List α)
    (hd : dones.length = rewards.length) (hv : values.length = rewards.length)
    (i : ℕ) (hi : i < rewards.length) :
    (gaeAdv γ lam nv rewards dones values).getD i 0 =
      rewards.getD i 0 - values.getD i 0 +
        γ * (if dones.getD i false then 0 else 1) *
          ((if i + 1 < rewards.length then values.getD (i + 1) 0 else nv) +
            lam * (if i + 1 < rewards.length
                    then (gaeAdv γ lam nv rewards dones values).getD (i + 1) 0
                    else 0)) := by
  induction rewards generalizing dones values i with
  | nil => simp at hi
  | cons r rs ih =>
    cases dones with
    | nil => simp at hd
    | cons d ds =>
      cases values with
      | nil => simp at hv
      | cons v vs =>
        have hd' : ds.length = rs.length := by simpa using hd
        have hv' : vs.length = rs.length := by simpa using hv
        cases i with
        | zero =>
          cases rs with
          | nil =>
            have hds : ds = [] := List.length_eq_zero.mp hd'
            have hvs : vs = [] := List.length_eq_zero.mp hv'
            subst hds; subst hvs
            simp [gaeAdv]
          | cons r1 rs1 =>
            cases ds with
            | nil => simp at hd'
            | cons d1 ds1 =>
              cases vs with
              | nil => simp at hv'
              | cons v1 vs1 =>
                simp [gaeAdv]
        | succ j =>
          have hj : j < rs.length := by
            simpa [Nat.succ_lt_succ_iff] using hi
          have := ih ds vs hd' hv' j hj
          simp only [gaeAdv, List.getD_cons_succ, List.length_cons,
            Nat.add_lt_add_iff_right]
          exact this

/-- C1 witness: the backward-pass recurrence evaluated on a concrete
two-step trajectory. -/
theorem gae_backward_pass_witness :
    ([false, true] : List Bool).length = ([1, 2] : List ℚ).length ∧
    ([3, 4] : List ℚ).length = ([1, 2] : List ℚ).length ∧
    0 < ([1, 2] : List ℚ).length ∧
    (gaeAdv (1 / 2 : ℚ) (1 / 4) 5 [1, 2] [false, true] [3, 4]).getD 0 0 =
      ([1, 2] : List ℚ).getD 0 0 - ([3, 4] : List ℚ).getD 0 0 +
        (1 / 2 : ℚ) * (if ([false, true] : List Bool).getD 0 false then 0 else 1) *
          ((if 0 + 1 < ([1, 2] : List ℚ).length then ([3, 4] : List ℚ).getD (0 + 1) 0 else 5) +
            (1 / 4 : ℚ) * (if 0 + 1 < ([1, 2] : List ℚ).length
                    then (gaeAdv (1 / 2 : ℚ) (1 / 4) 5 [1, 2] [false, true] [3, 4]).getD (0 + 1) 0
                    else 0)) :=
  ⟨rfl, rfl, by decide,
    @gae_backward_pass ℚ _ (1 / 2) (1 / 4) 5 [1, 2] [false, true] [3, 4] rfl rfl 0 (by decide)⟩

/-- C2: the compiled/fused GAE variant `_compute_gae` can never agree with the
eager `compute_gae` because its body is `raise NotImplementedError`; evaluated
here at the spec's own reference trajectory (rewards `[1,1,1,1]`, dones
`[0,0,0,1]`, values `[0.5,...]`, bootstrap `0.5`, `discount = 0.99`,
`lambda = 0.95`), it errors instead of producing the eager result. -/
theorem compiled_gae_not_implemented :
    _compute_gae [1, 1, 1, 1] [false, false, false, true] [1 / 2, 1 / 2, 1 / 2, 1 / 2]
        (1 / 2) (99 / 100) (95 / 100) = Except.error "NotImplementedError" := rfl

/-- Elementwise reading of `List.zipWith (+)` within bounds. -/
theorem zipWith_add_getD {α : Type} [AddZeroClass α] :
    ∀ (as bs : List α) (i : ℕ), i < as.length → i < bs.length →
      (List.zipWith (· + ·) as bs).getD i 0 = as.getD i 0 + bs.getD i 0 := by
  intro as
  induction as with
  | nil => intro bs i hi _; simp at hi
  | cons a as ih =>
    intro bs i hi hib
    cases bs with
    | nil => simp at hib
    | cons b bs =>
      cases i with
      | zero => simp
      | succ j =>
        simp only [List.zipWith_cons_cons, List.getD_cons_succ]
        exact ih bs j (by simpa using hi) (by simpa using hib)

/-- C6: for every input to `compute_gae` and every index `i`, the returned
`returns[i]` equals the pre-normalization `advantages[i]` plus `values[i]`,
exactly; the subsequent normalization only produces the advantages output
(`normalizeAdv` of the raw pass), it does not touch the returns. -/
theorem returns_eq_advantages_plus_values
    (rewards : List ℝ) (dones : List Bool) (values : List ℝ) (nv γ lam : ℝ)
    (hd : dones.length = rewards.length) (hv : values.length = rewards.length)
    (i : ℕ) (hi : i < rewards.length) :
    (compute_gae rewards dones values nv γ lam).1.getD i 0 =
      (gaeAdv γ lam nv rewards dones values).getD i 0 + values.getD i 0 ∧
    (compute_gae rewards dones values nv γ lam).2 =
      normalizeAdv (gaeAdv γ lam nv rewards dones values) := by
  refine ⟨?_, rfl⟩
  have hlen := gaeAdv_length γ lam nv rewards dones values hd hv
  exact zipWith_add_getD _ _ i (by rw [hlen]; exact hi) (by rw [hv]; exact hi)

/-- C6 witness: the identity evaluated on a concrete two-step trajectory. -/
theorem returns_eq_advantages_plus_values_witness :
    ([false, true] : List Bool).length = ([1, 2] : List ℝ).length ∧
    ([3, 4] : List ℝ).length = ([1, 2] : List ℝ).length ∧
    0 < ([1, 2] : List ℝ).length ∧
    (compute_gae [1, 2] [false, true] [3, 4] 5 (1 / 2) (1 / 4)).1.getD 0 0 =
      (gaeAdv (1 / 2 : ℝ) (1 / 4) 5 [1, 2] [false, true] [3, 4]).getD 0 0 +
        ([3, 4] : List ℝ).getD 0 0 :=
  ⟨rfl, rfl, by decide,
    (returns_eq_advantages_plus_values [1, 2] [false, true] [3, 4] 5 (1 / 2) (1 / 4)
      rfl rfl 0 (by decide)).1⟩

/-- Summing a pointwise division by a constant. -/
theorem sum_map_div (l : List ℝ) (f : ℝ → ℝ) (d : ℝ) :
    (l.map (fun x => f x / d)).sum = (l.map f).sum / d := by
  induction l with
  | nil => simp
  | cons a t ih => simp [ih, add_div]

/-- Summing a pointwise subtraction of a constant. -/
theorem sum_map_sub (l : List ℝ) (c : ℝ) :
    (l.map (fun x => x - c)).sum = l.sum - l.length * c := by
  induction l with
  | nil => simp
  | cons a t ih =>
    simp only [List.map_cons, List.sum_cons, ih, List.length_cons]
    push_cast
    ring

/-- Mean of a pointwise division by a constant. -/
theorem lmean_map_div (l : List ℝ) (f : ℝ → ℝ) (d : ℝ) :
    lmean (l.map (fun x => f x / d)) = lmean (l.map f) / d := by
  rw [lmean, lmean, List.length_map, List.length_map, sum_map_div, div_right_comm]

/-- Mean of a pointwise subtraction of a constant over a non-empty list. -/
theorem lmean_map_sub (l : List ℝ) (hl : l ≠ []) (c : ℝ) :
    lmean (l.map (fun x => x - c)) = lmean l - c := by
  have hn : (l.length : ℝ) ≠ 0 := by
    exact_mod_cast (List.length_pos.mpr hl).ne'
  rw [lmean, List.length_map, sum_map_sub, sub_div]
  congr 1
  exact mul_div_cancel_left₀ c hn

/-- Mean of the affine image `(x - c) / d` of a non-empty list. -/
theorem lmean_affine (l : List ℝ) (hl : l ≠ []) (c d : ℝ) :
    lmean (l.map (fun x => (x - c) / d)) = (lmean l - c) / d := by
  rw [lmean_map_div l (fun x => x - c) d, lmean_map_sub l hl c]

/-- Sum of a constant list. -/
theorem sum_of_const (l : List ℝ) (c : ℝ) (h : ∀ x ∈ l, x = c) :
    l.sum = l.length * c := by
  induction l with
  | nil => simp
  | cons a t ih =>
    have ha : a = c := h a (by simp)
    have ht : ∀ x ∈ t, x = c := fun x hx => h x (by simp [hx])
    simp only [List.sum_cons, ha, ih ht, List.length_cons]
    push_cast
    ring

/-- Mean of a constant non-empty list. -/
theorem lmean_const (l : List ℝ) (hl : l ≠ []) (c : ℝ) (h : ∀ x ∈ l, x = c) :
    lmean l = c := by
  have hn : (l.length : ℝ) ≠ 0 := by
    exact_mod_cast (List.length_pos.mpr hl).ne'
  rw [lmean, sum_of_const l c h]
  field_simp

/-- The mean of the normalized advantages is exactly 0. -/
theorem lmean_normalizeAdv (l : List ℝ) (hl : l ≠ []) : lmean (normalizeAdv l) = 0 := by
  rw [normalizeAdv, lmean_affine l hl, sub_self, zero_div]

/-- The population variance is nonnegative. -/
theorem npVar_nonneg (l : List ℝ) : 0 ≤ npVar l := by
  rw [npVar, lmean]
  apply div_nonneg
  · apply List.sum_nonneg
    intro x hx
    obtain ⟨y, _, rfl⟩ := List.mem_map.mp hx
    positivity
  · positivity

/-- Variance of the affine image `(x - mean) / d`. -/
theorem npVar_affine (l : List ℝ) (hl : l ≠ []) (d : ℝ) :
    npVar (l.map (fun x => (x - lmean l) / d)) = npVar l / d ^ 2 := by
  have h0 : lmean (l.map (fun x => (x - lmean l) / d)) = 0 := by
    rw [lmean_affine l hl, sub_self, zero_div]
  rw [npVar, h0, List.map_map]
  have h1 : ((fun x => (x - 0) ^ 2) ∘ fun x => (x - lmean l) / d)
      = fun x => ((x - lmean l) ^ 2) / d ^ 2 := by
    funext x
    simp [Function.comp, div_pow]
  rw [h1, lmean_map_div l (fun x => (x - lmean l) ^ 2) (d ^ 2)]
  rfl

/-- Standard deviation of the normalized advantages:
`std(l) / (std(l) + 1e-8)`. -/
theorem npStd_normalizeAdv (l : List ℝ) (hl : l ≠ []) :
    npStd (normalizeAdv l) = npStd l / (npStd l + 1e-8) := by
  have hD : (0 : ℝ) < npStd l + 1e-8 := by
    have h1 : (0 : ℝ) ≤ npStd l := Real.sqrt_nonneg _
    have h2 : (0 : ℝ) < 1e-8 := by norm_num
    linarith
  rw [normalizeAdv, npStd, npVar_affine l hl,
    Real.sqrt_div (npVar_nonneg l), Real.sqrt_sq hD.le, ← npStd]

/-- C5: the advantages returned by `compute_gae` are the raw advantages
normalized as `(x - mean) / (std + 1e-8)` over the whole batch; the mean of a
normalized (non-empty) batch is exactly 0; when the raw batch has non-zero
variance its standard deviation after normalization lies within
`1e-8 / std` of 1 (the floating tolerance made explicit:
`1 - 1e-8 / std(l) ≤ std(normalized) ≤ 1`); and a constant raw batch
normalizes to all zeros — the `1e-8` epsilon prevents any division by zero. -/
theorem advantages_normalized (l : List ℝ) (hl : l ≠ []) :
    (∀ (rewards values : List ℝ) (dones : List Bool) (nv γ lam : ℝ),
        (compute_gae rewards dones values nv γ lam).2
          = normalizeAdv (gaeAdv γ lam nv rewards dones values)) ∧
    lmean (normalizeAdv l) = 0 ∧
    (npVar l ≠ 0 →
      npStd (normalizeAdv l) ≤ 1 ∧ 1 - 1e-8 / npStd l ≤ npStd (normalizeAdv l)) ∧
    (∀ c : ℝ, (∀ x ∈ l, x = c) → ∀ y ∈ normalizeAdv l, y = 0) := by
  have hσ0 : (0 : ℝ) ≤ npStd l := Real.sqrt_nonneg _
  have hε : (0 : ℝ) < 1e-8 := by norm_num
  have hD : (0 : ℝ) < npStd l + 1e-8 := by linarith
  refine ⟨fun _ _ _ _ _ _ => rfl, lmean_normalizeAdv l hl, ?_, ?_⟩
  · intro hv
    have hσ : 0 < npStd l :=
      Real.sqrt_pos.mpr (lt_of_le_of_ne (npVar_nonneg l) (Ne.symm hv))
    rw [npStd_normalizeAdv l hl]
    constructor
    · exact div_le_one_of_le₀ (by linarith) hD.le
    · have h1 : npStd l / (npStd l + 1e-8) = 1 - 1e-8 / (npStd l + 1e-8) := by
        field_simp
      have h2 : 1e-8 / (npStd l + 1e-8) ≤ 1e-8 / npStd l :=
        div_le_div_of_nonneg_left hε.le hσ (by linarith)
      rw [h1]
      linarith
  · intro c hc y hy
    rw [normalizeAdv] at hy
    obtain ⟨x, hx, rfl⟩ := List.mem_map.mp hy
    rw [hc x hx, lmean_const l hl c hc, sub_self, zero_div]

/-- C5 witness: normalization evaluated on the concrete batch `[0, 2]`
(variance 1). -/
theorem advantages_normalized_witness :
    ([0, 2] : List ℝ) ≠ [] ∧ npVar ([0, 2] : List ℝ) ≠ 0 ∧
    lmean (normalizeAdv ([0, 2] : List ℝ)) = 0 ∧
    npStd (normalizeAdv ([0, 2] : List ℝ)) ≤ 1 := by
  have hne : ([0, 2] : List ℝ) ≠ [] := by simp
  have hv : npVar ([0, 2] : List ℝ) ≠ 0 := by
    rw [npVar, lmean, lmean]
    norm_num
  exact ⟨hne, hv, (advantages_normalized [0, 2] hne).2.1,
    ((advantages_normalized [0, 2] hne).2.2.1 hv).1⟩

/-- C7: the policy loss computed by `_update_policy` is invariant under adding
the same constant to every old (sampled) log-probability and every new
(recomputed) log-probability: only the ratio `exp(new - old)` enters the
clipped-surrogate loss. -/
theorem policy_loss_shift_invariant
    (next_log_prob sampled_log_prob sampled_advantages : List ℝ) (ratio_clip c : ℝ) :
    (_policy_loss (next_log_prob.map (fun x => x + c))
        (sampled_log_prob.map (fun x => x + c)) sampled_advantages ratio_clip).1 =
      (_policy_loss next_log_prob sampled_log_prob sampled_advantages ratio_clip).1 := by
  have hr : List.zipWith (fun n o => Real.exp (n - o))
      (next_log_prob.map (fun x => x + c)) (sampled_log_prob.map (fun x => x + c)) =
      List.zipWith (fun n o => Real.exp (n - o)) next_log_prob sampled_log_prob := by
    rw [List.zipWith_map]
    have h1 : (fun (n o : ℝ) => Real.exp ((n + c) - (o + c))) =
        fun (n o : ℝ) => Real.exp (n - o) := by
      funext n o
      ring_nf
    rw [h1]
  simp only [_policy_loss]
  rw [hr]

/-- Clipping into the degenerate interval `[-0, 0]` yields 0. -/
theorem jclip_zero {α : Type} [LinearOrderedField α] (x : α) : jclip x (-0) 0 = 0 := by
  rw [jclip, neg_zero]
  exact min_eq_right (le_max_right x 0)

/-- `zipWith` projecting its second list truncates it to the first's length. -/
theorem zipWith_snd_take {α β : Type} :
    ∀ (as : List α) (bs : List β),
      List.zipWith (fun _ b => b) as bs = bs.take as.length := by
  intro as
  induction as with
  | nil => intro bs; simp
  | cons a t ih =>
    intro bs
    cases bs with
    | nil => simp
    | cons b bt => simp [ih bt]

/-- C8: in `_update_value` with clipping enabled the predicted value is
replaced by `old_value + clip(predicted - old_value, -value_clip, value_clip)`
and the loss is `loss_scale * mean((return - predicted)^2)`; with
`value_clip = 0` the predicted value is pinned exactly to the sampled old
value, the loss equals `loss_scale * mean((return - old_value)^2)`, and the
loss does not depend on the prediction at all (so zero gradient flows to it). -/
theorem value_clipping {α : Type} [LinearOrderedField α]
    (predicted_values sampled_values sampled_returns : List α) (scale c : α)
    (hlen : predicted_values.length = sampled_values.length) :
    (_value_loss predicted_values sampled_values sampled_returns scale true c
      = scale * lmean (List.zipWith (fun r p => (r - p) ^ 2) sampled_returns
          (List.zipWith (fun p sv => sv + jclip (p - sv) (-c) c)
            predicted_values sampled_values))) ∧
    (_value_loss predicted_values sampled_values sampled_returns scale true 0
      = scale * lmean (List.zipWith (fun r sv => (r - sv) ^ 2)
          sampled_returns sampled_values)) ∧
    (∀ pv2 : List α, pv2.length = predicted_values.length →
      _value_loss pv2 sampled_values sampled_returns scale true 0
        = _value_loss predicted_values sampled_values sampled_returns scale true 0) := by
  have hpin : ∀ pv : List α,
      List.zipWith (fun p sv => sv + jclip (p - sv) (-(0 : α)) 0) pv sampled_values
        = sampled_values.take pv.length := by
    intro pv
    have h1 : (fun (p sv : α) => sv + jclip (p - sv) (-(0 : α)) 0) = fun _ sv => sv := by
      funext p sv
      rw [jclip_zero, add_zero]
    rw [h1, zipWith_snd_take]
  refine ⟨rfl, ?_, ?_⟩
  · show scale * lmean (List.zipWith (fun r p => (r - p) ^ 2) sampled_returns
        (List.zipWith (fun p sv => sv + jclip (p - sv) (-(0 : α)) 0)
          predicted_values sampled_values)) = _
    rw [hpin, hlen, List.take_length]
  · intro pv2 h2
    show scale * lmean (List.zipWith (fun r p => (r - p) ^ 2) sampled_returns
        (List.zipWith (fun p sv => sv + jclip (p - sv) (-(0 : α)) 0)
          pv2 sampled_values)) = scale * lmean (List.zipWith (fun r p => (r - p) ^ 2)
        sampled_returns (List.zipWith (fun p sv => sv + jclip (p - sv) (-(0 : α)) 0)
          predicted_values sampled_values))
    rw [hpin, hpin, h2]

/-- C8 witness: the pinned value loss evaluated on a concrete minibatch. -/
theorem value_clipping_witness :
    ([(1 : ℚ)]).length = ([(2 : ℚ)]).length ∧
    _value_loss [(1 : ℚ)] [2] [4] 3 true 0
      = 3 * lmean (List.zipWith (fun r sv => (r - sv) ^ 2) [(4 : ℚ)] [2]) :=
  ⟨rfl, (@value_clipping ℚ _ [1] [2] [4] 3 1 rfl).2.1⟩

/-- C3: constructing a PPO agent does NOT leave the shared module-level
default configuration unchanged — `_cfg = PPO_DEFAULT_CONFIG` aliases the
module dict (the deepcopy is commented out) and `_cfg.update(cfg)` mutates it
in place, so after constructing an agent with the override
`{"rollouts": 32}` the module-level defaults carry `rollouts = 32` instead of
the original 16. -/
theorem default_config_mutation :
    dictLookup PPO_DEFAULT_CONFIG "rollouts" = some (CfgVal.i 16) ∧
    dictLookup (PPO_init_cfg PPO_DEFAULT_CONFIG
        (some [("rollouts", CfgVal.i 32)])).2 "rollouts" = some (CfgVal.i 32) ∧
    (PPO_init_cfg PPO_DEFAULT_CONFIG (some [("rollouts", CfgVal.i 32)])).2
      ≠ PPO_DEFAULT_CONFIG := by
  refine ⟨rfl, rfl, ?_⟩
  intro h
  have h2 : (some (CfgVal.i 32) : Option CfgVal) = some (CfgVal.i 16) :=
    congrArg (fun d => dictLookup d "rollouts") h
  simp at h2

/-- C4: during `_update`, when `kl_threshold > 0` and a minibatch's
approximate KL divergence exceeds it, the remaining minibatches of the current
epoch are skipped (the run on `mb :: rest` equals the run on `[mb]` alone), no
further policy or value optimizer step is taken that epoch, and the KL values
collected — including the one that triggered the stop, which is appended
before the break — are still passed as their mean to the KL-adaptive
scheduler's step at the end of the epoch. -/
theorem kl_early_stopping {S MB G : Type} (ctx : UpdateCtx S MB G) (cfg : PPOCfg)
    (epoch : ℕ) (s : S) (mb : MB) (rest : List MB)
    (hthr : 0 < cfg.kl_threshold) (hkl : cfg.kl_threshold < mbKL ctx cfg epoch s mb) :
    runMinibatches ctx cfg epoch s (mb :: rest) = runMinibatches ctx cfg epoch s [mb] ∧
    (runMinibatches ctx cfg epoch s (mb :: rest)).psteps = 0 ∧
    (runMinibatches ctx cfg epoch s (mb :: rest)).vsteps = 0 ∧
    (runMinibatches ctx cfg epoch s (mb :: rest)).kls = [mbKL ctx cfg epoch s mb] ∧
    (cfg.has_lr_scheduler = true → cfg.scheduler_is_kl_adaptive = true →
      epochSchedCall cfg (runMinibatches ctx cfg epoch s (mb :: rest)).kls
        = some (lmean (runMinibatches ctx cfg epoch s (mb :: rest)).kls)) := by
  have hcond : cfg.kl_threshold ≠ 0 ∧ cfg.kl_threshold < (mbPolicy ctx cfg epoch s mb).2.2 :=
    ⟨ne_of_gt hthr, hkl⟩
  have key : ∀ r : List MB, runMinibatches ctx cfg epoch s (mb :: r) =
      ⟨(mbPre ctx epoch s mb).2, [(mbPolicy ctx cfg epoch s mb).2.2], 0, 0, 0, 0, 0⟩ := by
    intro r
    simp only [runMinibatches]
    rw [if_pos hcond]
  refine ⟨(key rest).trans (key []).symm, ?_, ?_, ?_, ?_⟩
  · rw [key rest]
  · rw [key rest]
  · rw [key rest]
    rfl
  · intro h1 h2
    rw [key rest]
    simp [epochSchedCall, h1, h2]

/-- C4 witness: early stopping on a concrete two-minibatch epoch where the
first minibatch's KL (5) exceeds the threshold (1). -/
theorem kl_early_stopping_witness :
    (0 : ℚ) < witCfg.kl_threshold ∧
    witCfg.kl_threshold < mbKL witCtx witCfg 0 0 () ∧
    runMinibatches witCtx witCfg 0 (0 : ℚ) [(), ()]
      = runMinibatches witCtx witCfg 0 (0 : ℚ) [()] :=
  ⟨by norm_num [witCfg], by norm_num [witCfg, mbKL, mbPolicy, mbPre, witCtx],
    (kl_early_stopping witCtx witCfg 0 0 () [()] (by norm_num [witCfg])
      (by norm_num [witCfg, mbKL, mbPolicy, mbPre, witCtx])).1⟩

/-- C9: when `act` is called with `timestep < random_timesteps` it returns the
policy's `random_act` result and leaves the whole agent state — in particular
the cached `_current_log_prob` — untouched; a `record_transition` following
such a call therefore writes the stale previously-cached log-probability into
the primary memory and into every secondary memory. -/
theorem random_act_stale_log_prob {S A O : Type} (policy : PolicyOracle S A O)
    (statePre : S → S) (valueAct : S → ℚ) (valuePreInv : ℚ → ℚ)
    (rewards_shaper : Option (ℚ → ℕ → ℕ → ℚ)) (random_timesteps : ℕ)
    (ag : AgentState S A) (states : S) (timestep : ℕ)
    (actions : A) (rewards : ℚ) (next_states : S) (terminated truncated : Bool)
    (rt_timestep rt_timesteps : ℕ)
    (h : timestep < random_timesteps) :
    (PPO_act policy statePre random_timesteps ag states timestep).2 = ag ∧
    (PPO_act policy statePre random_timesteps ag states timestep).1
      = ActOut.random (policy.random_act (statePre states)) ∧
    (PPO_record_transition valueAct valuePreInv statePre rewards_shaper
        (PPO_act policy statePre random_timesteps ag states timestep).2
        states actions rewards next_states terminated truncated
        rt_timestep rt_timesteps).memory
      = ag.memory ++ [⟨states, actions,
          rewards_shaper.elim rewards (fun f => f rewards rt_timestep rt_timesteps),
          next_states, terminated, truncated, ag.current_log_prob,
          valuePreInv (valueAct (statePre states))⟩] ∧
    (PPO_record_transition valueAct valuePreInv statePre rewards_shaper
        (PPO_act policy statePre random_timesteps ag states timestep).2
        states actions rewards next_states terminated truncated
        rt_timestep rt_timesteps).secondary_memories
      = ag.secondary_memories.map (fun m => m ++ [⟨states, actions,
          rewards_shaper.elim rewards (fun f => f rewards rt_timestep rt_timesteps),
          next_states, terminated, truncated, ag.current_log_prob,
          valuePreInv (valueAct (statePre states))⟩]) := by
  have h2 : PPO_act policy statePre random_timesteps ag states timestep
      = (ActOut.random (policy.random_act (statePre states)), ag) := by
    rw [PPO_act, if_pos h]
  refine ⟨?_, ?_, ?_, ?_⟩ <;> rw [h2] <;> rfl

/-- C9 witness: a concrete random-phase `act` (timestep 3 < 5 random
timesteps) leaves the agent state unchanged. -/
theorem random_act_stale_log_prob_witness :
    3 < 5 ∧ (PPO_act witPolicy (fun s => s) 5 witAgent 2 3).2 = witAgent :=
  ⟨by decide,
    (random_act_stale_log_prob witPolicy (fun s => s) (fun s => s) (fun v => v)
      Option.none 5 witAgent 2 3 0 0 0 true false 0 0 (by decide)).1⟩

/-- `setGradNormClip` changes no configuration field other than
`grad_norm_clip`; in particular none of the fields `_update` reads. -/
theorem setGradNormClip_kl_threshold (cfg : PPOCfg) (x : ℚ) :
    (setGradNormClip cfg x).kl_threshold = cfg.kl_threshold := rfl

/-- `entropy_loss_scale` is untouched by `setGradNormClip`. -/
theorem setGradNormClip_entropy_loss_scale (cfg : PPOCfg) (x : ℚ) :
    (setGradNormClip cfg x).entropy_loss_scale = cfg.entropy_loss_scale := rfl

/-- `value_loss_scale` is untouched by `setGradNormClip`. -/
theorem setGradNormClip_value_loss_scale (cfg : PPOCfg) (x : ℚ) :
    (setGradNormClip cfg x).value_loss_scale = cfg.value_loss_scale := rfl

/-- `clip_predicted_values` is untouched by `setGradNormClip`. -/
theorem setGradNormClip_clip_predicted_values (cfg : PPOCfg) (x : ℚ) :
    (setGradNormClip cfg x).clip_predicted_values = cfg.clip_predicted_values := rfl

/-- `value_clip` is untouched by `setGradNormClip`. -/
theorem setGradNormClip_value_clip (cfg : PPOCfg) (x : ℚ) :
    (setGradNormClip cfg x).value_clip = cfg.value_clip := rfl

/-- `learning_epochs` is untouched by `setGradNormClip`. -/
theorem setGradNormClip_learning_epochs (cfg : PPOCfg) (x : ℚ) :
    (setGradNormClip cfg x).learning_epochs = cfg.learning_epochs := rfl

/-- `mini_batches` is untouched by `setGradNormClip`. -/
theorem setGradNormClip_mini_batches (cfg : PPOCfg) (x : ℚ) :
    (setGradNormClip cfg x).mini_batches = cfg.mini_batches := rfl

/-- `has_lr_scheduler` is untouched by `setGradNormClip`. -/
theorem setGradNormClip_has_lr_scheduler (cfg : PPOCfg) (x : ℚ) :
    (setGradNormClip cfg x).has_lr_scheduler = cfg.has_lr_scheduler := rfl

/-- `mbPolicy` does not depend on `grad_norm_clip`. -/
theorem mbPolicy_setGradNormClip {S MB G : Type} (ctx : UpdateCtx S MB G)
    (cfg : PPOCfg) (x : ℚ) (epoch : ℕ) (s : S) (mb : MB) :
    mbPolicy ctx (setGradNormClip cfg x) epoch s mb = mbPolicy ctx cfg epoch s mb := rfl

/-- `lrOverride` does not depend on `grad_norm_clip`. -/
theorem lrOverride_setGradNormClip {S MB G : Type} (ctx : UpdateCtx S MB G)
    (cfg : PPOCfg) (x : ℚ) (s : S) :
    lrOverride ctx (setGradNormClip cfg x) s = lrOverride ctx cfg s := rfl

/-- `epochSchedCall` does not depend on `grad_norm_clip`. -/
theorem epochSchedCall_setGradNormClip (cfg : PPOCfg) (x : ℚ) (kls : List ℚ) :
    epochSchedCall (setGradNormClip cfg x) kls = epochSchedCall cfg kls := rfl

/-- The minibatch loop is unchanged by replacing `grad_norm_clip`. -/
theorem runMinibatches_setGradNormClip {S MB G : Type} (ctx : UpdateCtx S MB G)
    (cfg : PPOCfg) (x : ℚ) (epoch : ℕ) :
    ∀ (s : S) (mbs : List MB),
      runMinibatches ctx (setGradNormClip cfg x) epoch s mbs
        = runMinibatches ctx cfg epoch s mbs := by
  intro s mbs
  induction mbs generalizing s with
  | nil => rfl
  | cons mb rest ih =>
    simp only [runMinibatches, mbPolicy_setGradNormClip, setGradNormClip_kl_threshold,
      setGradNormClip_entropy_loss_scale, setGradNormClip_value_loss_scale,
      setGradNormClip_clip_predicted_values, setGradNormClip_value_clip,
      lrOverride_setGradNormClip, ih]

/-- The epoch loop is unchanged by replacing `grad_norm_clip`. -/
theorem runEpochs_setGradNormClip {S MB G : Type} (ctx : UpdateCtx S MB G)
    (cfg : PPOCfg) (x : ℚ) (mbs : List MB) :
    ∀ (n e : ℕ) (s : S),
      runEpochs ctx (setGradNormClip cfg x) mbs e n s = runEpochs ctx cfg mbs e n s := by
  intro n
  induction n with
  | zero => intro e s; rfl
  | succ k ih =>
    intro e s
    simp only [runEpochs, runMinibatches_setGradNormClip,
      epochSchedCall_setGradNormClip, ih]

/-- C10: `grad_norm_clip` has no effect on the agent's update behaviour —
two update cycles that differ only in `grad_norm_clip` produce identical
final states, scheduler calls, optimizer step counts, cumulative losses and
tracked metrics, because gradient-norm clipping is never applied to any
gradient before the policy or value optimizer step. -/
theorem grad_norm_clip_has_no_effect {S MB G : Type} (ctx : UpdateCtx S MB G)
    (cfg : PPOCfg) (x : ℚ) (s : S) (mbs : List MB) :
    runUpdate ctx (setGradNormClip cfg x) s mbs = runUpdate ctx cfg s mbs := by
  simp only [runUpdate, runEpochs_setGradNormClip, setGradNormClip_learning_epochs,
    setGradNormClip_mini_batches, setGradNormClip_entropy_loss_scale,
    setGradNormClip_has_lr_scheduler]

end Skrl
